import Mathlib

/-!
Verification of the review reconciliation pipeline of QluxLab/Reviewer.

The definitions below are a shallow embedding of the TypeScript sources:
`src/utils.ts` (severity model, diff rendering), `src/services/github.ts`
(comment classifier, review posting, delete/minimize services) and
`src/main.ts` (the `run` pipeline).  Machine integers are modelled as `Nat`
(no arithmetic in the sources overflows), absent/optional JavaScript values
as `Option`, and thrown exceptions as explicit outcome values.
-/

namespace Reviewer

/-! ## JavaScript string primitives

The sources use `toLowerCase`, `trim`, `split`, `startsWith`, `includes`
and template joining on strings.  These are modelled here by structurally
recursive functions over the character list of a `String`, so that every
definition in this file evaluates on concrete inputs. -/

/-- JavaScript `String.prototype.toLowerCase`: lower-case every character. -/
def toLowerString (s : String) : String :=
  String.mk (s.data.map Char.toLower)

/-- JavaScript `String.prototype.trim`: drop leading and trailing
whitespace characters. -/
def trimString (s : String) : String :=
  String.mk (((s.data.dropWhile Char.isWhitespace).reverse.dropWhile
    Char.isWhitespace).reverse)

/-- Does the second list occur at the head of the first? -/
def startAux : List Char → List Char → Bool
  | _, [] => true
  | [], _ :: _ => false
  | c :: cs, p :: ps => c == p && startAux cs ps

/-- JavaScript `String.prototype.startsWith`. -/
def strStartsWith (s pattern : String) : Bool :=
  startAux s.data pattern.data

/-- Does the pattern occur as a contiguous run anywhere in the list? -/
def containsSubAux (pat : List Char) : List Char → Bool
  | [] => startAux [] pat
  | c :: rest => startAux (c :: rest) pat || containsSubAux pat rest

/-- JavaScript `String.prototype.includes`. -/
def includesSubstring (s pattern : String) : Bool :=
  containsSubAux pattern.data s.data

/-- Split a character list at every newline character. -/
def splitLinesAux : List Char → List Char → List String
  | [], acc => [String.mk acc.reverse]
  | c :: rest, acc =>
    if c = '\n' then String.mk acc.reverse :: splitLinesAux rest []
    else splitLinesAux rest (c :: acc)

/-- JavaScript `body.split("\n")`. -/
def splitLines (s : String) : List String :=
  splitLinesAux s.data []

/-- JavaScript `lines.join("\n")`. -/
def joinLines : List String → String
  | [] => ""
  | [l] => l
  | l :: rest => l ++ "\n" ++ joinLines rest

/-! ## Severity model (src/utils.ts 4, 33-51) -/

/-- The `SeverityLevel` string union of src/utils.ts line 4. -/
inductive SeverityLevel
  | low
  | medium
  | high
  | critical
deriving DecidableEq, Repr

/-- The list literal `["low", "medium", "high", "critical"]` of
src/utils.ts line 46. -/
def severityNames : List String := ["low", "medium", "high", "critical"]

/-- The `levels` record of `getSeverityLevel` (src/utils.ts 34-39),
as an association list. -/
def levels : List (String × Nat) :=
  [("low", 0), ("medium", 1), ("high", 2), ("critical", 3)]

/-- The numeric own-property portion of `getSeverityLevel`
(src/utils.ts 33-42): lower-case and trim the raw string, look it up among
the four own keys of `levels`, defaulting to 0.  This is the value the
program computes whenever the normalized string is not an own property
name of `Object.prototype`; the full JavaScript property-access semantics
of `levels[normalized] ?? 0`, prototype chain included, is
`getSeverityLevelJS` below. -/
def getSeverityLevel (severity : String) : Nat :=
  let normalized := trimString (toLowerString severity)
  (levels.lookup normalized).getD 0

/-- The injection of the four tier names into `SeverityLevel`; this is the
meaning of the TypeScript cast `lower as SeverityLevel` on
src/utils.ts line 47, defined only on the four exact tier names. -/
def severityOfString? (s : String) : Option SeverityLevel :=
  if s = "low" then some SeverityLevel.low
  else if s = "medium" then some SeverityLevel.medium
  else if s = "high" then some SeverityLevel.high
  else if s = "critical" then some SeverityLevel.critical
  else none

/-- `normalizeSeverity` of src/utils.ts 44-51 (the same function is
duplicated as `AIService.normalizeSeverity`, src/services/ai.ts 360-367):
lower-case and trim, return the matching tier if the result is one of the
four names, otherwise default to `low`. -/
def normalizeSeverity (severity : String) : SeverityLevel :=
  let lower := trimString (toLowerString severity)
  if severityNames.contains lower then
    (severityOfString? lower).getD SeverityLevel.low
  else SeverityLevel.low

/-- The numeric rank of a severity tier, as tabulated by `levels`
(src/utils.ts 34-39): low = 0, medium = 1, high = 2, critical = 3. -/
def severityRank : SeverityLevel → Nat
  | SeverityLevel.low => 0
  | SeverityLevel.medium => 1
  | SeverityLevel.high => 2
  | SeverityLevel.critical => 3

/-- The result of the JavaScript property read `levels[normalized] ?? 0`
(src/utils.ts 41): either a number — an own data property of `levels`, or
the fallback 0 for an absent property — or a member inherited from
`Object.prototype` through the prototype chain (a function, or
`Object.prototype` itself for `__proto__`), identified by its name. -/
inductive JSLookup
  | num (n : Nat)
  | inherited (name : String)
deriving DecidableEq, Repr

/-- The own property names of `Object.prototype`, which every plain object
literal such as `levels` inherits.  Only the all-lower-case names
(`constructor`, `__proto__`) are reachable after `toLowerCase`, but the
full set is listed. -/
def objectPrototypeProps : List String :=
  ["constructor", "hasOwnProperty", "isPrototypeOf", "propertyIsEnumerable",
   "toLocaleString", "toString", "valueOf", "__proto__",
   "__defineGetter__", "__defineSetter__", "__lookupGetter__", "__lookupSetter__"]

/-- `getSeverityLevel` of src/utils.ts 33-42 under full JavaScript
property-access semantics: `levels[normalized]` is a property read that
consults the prototype chain, so when the normalized string is not one of
the four own keys but names an own property of `Object.prototype`, the
read yields that inherited member — which is neither `undefined` nor
`null`, so `?? 0` does not replace it; only an absent property falls back
to 0. -/
def getSeverityLevelJS (severity : String) : JSLookup :=
  let normalized := trimString (toLowerString severity)
  match levels.lookup normalized with
  | some n => JSLookup.num n
  | none =>
    if objectPrototypeProps.contains normalized then JSLookup.inherited normalized
    else JSLookup.num 0

/-! ## Diff line-mapper (src/utils.ts 53-99 `processDiff`, over the output
of the third-party `parse-diff` library) -/

/-- The three change types of a unified-diff hunk line, as reported by
`parse-diff` and matched on in `processDiff` (src/utils.ts 75, 80, 85). -/
inductive ChangeKind
  | add
  | del
  | normal
deriving DecidableEq, Repr

/-- One raw change line of a hunk before line numbers are assigned:
its kind and its text. -/
structure RawChange where
  kind : ChangeKind
  content : String
deriving DecidableEq, Repr

/-- One hunk of a unified diff: the `@@ -a,b +c,d @@` header declares
`oldStart = a` and `newStart = c`, followed by the change lines. -/
structure Hunk where
  oldStart : Nat
  newStart : Nat
  changes : List RawChange
deriving DecidableEq, Repr

/-- One file section of a unified diff. -/
structure FileDiff where
  oldPath : String
  newPath : String
  hunks : List Hunk
deriving DecidableEq, Repr

/-- A change record as produced by `parse-diff`: `ln` carries the new-file
line number of an added line and the old-file line number of a deleted
line; `ln1`/`ln2` carry the old/new numbers of a context line.  These are
the fields `processDiff` reads (src/utils.ts 78, 83). -/
structure PDChange where
  kind : ChangeKind
  ln : Option Nat
  ln1 : Option Nat
  ln2 : Option Nat
  content : String
deriving DecidableEq, Repr

/-- Modelled from the spec: the `parse-diff` npm package that `processDiff`
(src/utils.ts 53-99) delegates hunk parsing to is a third-party dependency
whose source is not part of this repository.  Per spec section 4.1, each
hunk runs two counters seeded from the hunk header: the new-line counter
starts at the new-range start and increments on every context or added
line, never on deleted lines; the old-line counter starts at the old-range
start and increments on every context or deleted line. -/
def numberChanges (oldC newC : Nat) : List RawChange → List PDChange
  | [] => []
  | c :: rest =>
    match c.kind with
    | ChangeKind.add =>
        ⟨ChangeKind.add, some newC, none, none, c.content⟩
          :: numberChanges oldC (newC + 1) rest
    | ChangeKind.del =>
        ⟨ChangeKind.del, some oldC, none, none, c.content⟩
          :: numberChanges (oldC + 1) newC rest
    | ChangeKind.normal =>
        ⟨ChangeKind.normal, none, some oldC, some newC, c.content⟩
          :: numberChanges (oldC + 1) (newC + 1) rest

/-- The new-file line number `processDiff` attaches to a change when
rendering it (src/utils.ts 74-88): an added line uses `ln`, a context line
uses `ln2`, a deleted line gets no number. -/
def newLineNumberOf (c : PDChange) : Option Nat :=
  match c.kind with
  | ChangeKind.add => c.ln
  | ChangeKind.normal => c.ln2
  | ChangeKind.del => none

/-- One addressable line of the mapped diff: the post-change file path, the
new-file line number (absent for deletions), the change kind and the text. -/
structure DiffLine where
  file : String
  newLineNumber : Option Nat
  kind : ChangeKind
  content : String
deriving DecidableEq, Repr

/-- Map one hunk of a file into `DiffLine`s: number its changes with the
counters seeded from the hunk header, then attach the new-file line number
the way `processDiff` does. -/
def mapHunk (file : String) (h : Hunk) : List DiffLine :=
  (numberChanges h.oldStart h.newStart h.changes).map
    (fun c => ⟨file, newLineNumberOf c, c.kind, c.content⟩)

/-- Map one file section: every hunk in input order, under the post-change
path (`processDiff` renders `+++ b/${file.to}`, src/utils.ts 66). -/
def mapFile (f : FileDiff) : List DiffLine :=
  (f.hunks.map (mapHunk f.newPath)).flatten

/-- Map a whole diff: every file section in input order. -/
def mapDiff (d : List FileDiff) : List DiffLine :=
  (d.map mapFile).flatten

/-- Number of changes of a hunk that exist in the new file (context or
added lines); deleted lines are not counted. -/
def newCount : List RawChange → Nat
  | [] => 0
  | c :: rest =>
    if c.kind = ChangeKind.del then newCount rest else newCount rest + 1

/-- Well-formedness of the hunks of one file in a unified diff: hunks
appear in file order and do not overlap, so each hunk's declared new-range
start is at least the previous hunk's new-range start plus its new-line
count. -/
def hunksOrdered (hs : List Hunk) : Prop :=
  List.Chain' (fun a b => a.newStart + newCount a.changes ≤ b.newStart) hs

/-- Does a proposed `(file, line)` anchor resolve to an added line of the
mapped diff? -/
def resolvesToAdded (lines : List DiffLine) (file : String) (line : Nat) : Bool :=
  lines.any (fun d =>
    d.file == file && d.newLineNumber == some line && d.kind == ChangeKind.add)

/-! ## Annotation classifier (src/services/github.ts 138-242) -/

/-- The two platform comment subtypes distinguished by `listBotComments`. -/
inductive CommentType
  | issue
  | review
deriving DecidableEq, Repr

/-- An issue-level (general) comment as returned by the platform listing
call; `userLogin` is `comment.user?.login` (absent when the platform
reports no user), `body` may be absent. -/
structure IssueComment where
  id : Nat
  userLogin : Option String
  body : Option String
deriving DecidableEq, Repr

/-- A line-anchored review comment as returned by the platform listing
call: `position` is the current diff position (`null` when the platform
reports the anchor as no longer resolving), `line`/`originalLine` the
current/original line numbers, `isMinimized` the optional collapse flag. -/
structure ReviewComment where
  id : Nat
  userLogin : Option String
  body : String
  path : String
  line : Option Nat
  originalLine : Option Nat
  position : Option Nat
  isMinimized : Option Bool
deriving DecidableEq, Repr

/-- One record of the classified annotation set produced by
`listBotComments` (src/services/github.ts 174-242). -/
structure CommentRecord where
  id : Nat
  body : String
  path : Option String
  line : Option Nat
  type : CommentType
  isOutdated : Bool
  isSummary : Bool
  isMinimized : Bool
deriving DecidableEq, Repr

/-- `GitHubService.getAuthenticatedUser` (src/services/github.ts 138-144)
strictly returns the login `github-actions[bot]`; this is the system's own
identity used to filter comments. -/
def getAuthenticatedUserLogin : String := "github-actions[bot]"

/-- JavaScript `a || b` on optional numbers, where 0 is falsy: used for
`comment.line || comment.original_line || undefined`
(src/services/github.ts 229). -/
def jsOrNat : Option Nat → Option Nat → Option Nat
  | some n, b => if n = 0 then b else some n
  | none, b => b

/-- The summary-marker test of `listBotComments`
(src/services/github.ts 204-206): the body contains the summary header, or
the old format's note marker together with the old summary title. -/
def isSummaryBody (b : String) : Bool :=
  includesSubstring b "# 📋 PR Summary"
    || (includesSubstring b "> [!NOTE]" && includesSubstring b "**AI Review Summary**")

/-- Classification of one self-authored issue comment
(src/services/github.ts 201-216): always active, summary iff the body
carries the marker, never minimized. -/
def classifyIssueComment (c : IssueComment) : CommentRecord :=
  { id := c.id
    body := c.body.getD ""
    path := none
    line := none
    type := CommentType.issue
    isOutdated := false
    isSummary := match c.body with
      | some b => isSummaryBody b
      | none => false
    isMinimized := false }

/-- Classification of one self-authored review comment
(src/services/github.ts 221-236): outdated iff the platform reports no
current position, line from `line || original_line || undefined`,
never a summary. -/
def classifyReviewComment (c : ReviewComment) : CommentRecord :=
  { id := c.id
    body := c.body
    path := some c.path
    line := jsOrNat c.line (jsOrNat c.originalLine none)
    type := CommentType.review
    isOutdated := c.position == none
    isSummary := false
    isMinimized := c.isMinimized.getD false }

/-- `GitHubService.listBotComments` (src/services/github.ts 174-242):
keep only comments whose author login equals the authenticated bot login,
issue comments first, then review comments, each classified. -/
def listBotComments (issueComments : List IssueComment)
    (reviewComments : List ReviewComment) : List CommentRecord :=
  (issueComments.filter
        (fun c => c.userLogin == some getAuthenticatedUserLogin)).map
      classifyIssueComment
    ++ (reviewComments.filter
        (fun c => c.userLogin == some getAuthenticatedUserLogin)).map
      classifyReviewComment

/-! ## Review posting (src/services/github.ts 22-120) -/

/-- The `alertMap` of `getAlertType` (src/services/github.ts 23-28), as an
association list; the raw severity string is the key. -/
def alertMap : List (String × String) :=
  [("critical", "CAUTION"), ("high", "WARNING"),
   ("medium", "IMPORTANT"), ("low", "TIP")]

/-- `GitHubService.getAlertType` (src/services/github.ts 22-30): look the
severity up in `alertMap`, defaulting to `NOTE` (`|| "NOTE"`). -/
def getAlertType (severity : String) : String :=
  (alertMap.lookup severity).getD "NOTE"

/-- Quote every line of a body with `> `, joined back with newlines, as
both formatting helpers do (src/services/github.ts 45-46, 61-62). -/
def quoteLines (body : String) : String :=
  joinLines ((splitLines body).map (fun l => "> " ++ l))

/-- `GitHubService.formatInlineComment` (src/services/github.ts 35-49):
a body already starting with an alert is returned as-is, otherwise it is
wrapped in the alert matching its severity. -/
def formatInlineComment (body severity : String) : String :=
  if strStartsWith (trimString body) "> [!" then body
  else "> [!" ++ getAlertType severity ++ "]\n" ++ quoteLines body

/-- `GitHubService.formatSummary` (src/services/github.ts 54-65):
a summary already starting with an alert is returned as-is, otherwise it is
wrapped under the summary header with a NOTE alert. -/
def formatSummary (summary : String) : String :=
  if strStartsWith (trimString summary) "> [!" then summary
  else "# 📋 PR Summary\n\n> [!NOTE]\n" ++ quoteLines summary

/-- One inline finding in the shape `createReview` expects
(src/main.ts 245-250): `path`, `line`, `body`, raw severity. -/
structure FormattedComment where
  path : String
  line : Nat
  body : String
  severity : String
deriving DecidableEq, Repr

/-- One inline comment as actually sent to the platform review call
(src/services/github.ts 96-100): path, line, formatted body. -/
structure InlinePayload where
  path : String
  line : Nat
  body : String
deriving DecidableEq, Repr

/-- What one `createReview` call posts: the summary issue comment (always
posted) and the inline review comments (the review call is made only for a
non-empty list, which posts exactly that list). -/
structure PostedReview where
  summaryComment : String
  inlineComments : List InlinePayload
deriving DecidableEq, Repr

/-- `GitHubService.createReview` (src/services/github.ts 90-120): format
and post the summary unconditionally; when a comment list was supplied,
format each body and post the list as a review (an absent list posts no
inline comments). -/
def createReview (summary : String) (comments : Option (List FormattedComment)) :
    PostedReview :=
  let formattedComments := (comments.getD []).map
    (fun c => InlinePayload.mk c.path c.line (formatInlineComment c.body c.severity))
  { summaryComment := formatSummary summary
    inlineComments := formattedComments }

/-! ## Reconciliation pipeline (src/main.ts 143-272) -/

/-- One proposed inline comment of the AI response (`AIReviewResponse`,
src/services/ai.ts 8-17); the severity is the raw string delivered by the
model. -/
structure AIComment where
  file : String
  line : Nat
  body : String
  severity : String
deriving DecidableEq, Repr

/-- The structured AI review response consumed by `run` (src/main.ts):
summary, proposed inline comments, explicit delete and minimize id lists
(absent lists modelled as empty). -/
structure AIReviewResponse where
  summary : String
  comments : List AIComment
  deleteCommentIds : List Nat
  minimizeCommentIds : List Nat
deriving DecidableEq, Repr

/-- The configuration fields of `Config` (src/config.ts 5-14) that the
review-posting phase of `run` reads. -/
structure Config where
  minSeverity : String
  disableInline : Bool
deriving DecidableEq, Repr

/-- The `validComments` filter of `run` (src/main.ts 208-210): keep only
proposed comments whose file is among the files under review. -/
def validComments (comments : List AIComment) (filesToReview : List String) :
    List AIComment :=
  comments.filter (fun c => filesToReview.contains c.file)

/-- The severity filter of `run` (src/main.ts 212-216): compute the
threshold rank once and keep the comments whose severity rank reaches it. -/
def filterBySeverity (comments : List AIComment) (minSeverity : String) :
    List AIComment :=
  let minSeverityLevel := getSeverityLevel minSeverity
  comments.filter (fun c => decide (getSeverityLevel c.severity ≥ minSeverityLevel))

/-- The field renaming of `run` (src/main.ts 245-250): `file` becomes
`path`; `line`, `body` and `severity` are carried over. -/
def formatComments (l : List AIComment) : List FormattedComment :=
  l.map (fun c => FormattedComment.mk c.file c.line c.body c.severity)

/-- The per-id resolution of `GitHubService.minimizeComments`
(src/services/github.ts 355-370): an id is attempted only when it is found
in the classified bot-comment set and is of review type; ids not found and
issue-type ids are skipped. -/
def minimizeTargets (existing : List CommentRecord) (ids : List Nat) : List Nat :=
  ids.filter (fun id =>
    match existing.find? (fun c => c.id == id) with
    | some c => c.type == CommentType.review
    | none => false)

/-- One deletion attempt of the delete loop, tagged with the platform call
used (issue-comment delete or review-comment delete). -/
inductive DeleteAttempt
  | issue (id : Nat)
  | review (id : Nat)
deriving DecidableEq, Repr

/-- The id a deletion attempt targets. -/
def DeleteAttempt.targetId : DeleteAttempt → Nat
  | DeleteAttempt.issue id => id
  | DeleteAttempt.review id => id

/-- The per-id dispatch of the delete loop of `run` (src/main.ts 181-204):
an id found in the classified bot-comment set is deleted with the call
matching its type; an id not found falls into the fallback, whose first
call `deleteReviewComment` traps its own platform errors
(src/services/github.ts 244-254) and therefore never raises, so the
fallback always results in a review-comment delete attempt and its catch
branch (the issue-comment attempt, src/main.ts 196-198) is unreachable. -/
def deleteTarget (existing : List CommentRecord) (id : Nat) : DeleteAttempt :=
  match existing.find? (fun c => c.id == id) with
  | some c =>
    match c.type with
    | CommentType.issue => DeleteAttempt.issue id
    | CommentType.review => DeleteAttempt.review id
  | none => DeleteAttempt.review id

/-- All deletion attempts of the delete loop, in request order. -/
def deleteTargets (existing : List CommentRecord) (ids : List Nat) :
    List DeleteAttempt :=
  ids.map (deleteTarget existing)

/-- The warning message recorded when a platform delete call fails inside
the service (src/services/github.ts 162, 252). -/
def deleteWarning : DeleteAttempt → String
  | DeleteAttempt.issue id => "Failed to delete issue comment " ++ toString id
  | DeleteAttempt.review id => "Failed to delete review comment " ++ toString id

/-- The info message recorded when a platform delete call succeeds
(src/services/github.ts 160, 250). -/
def deleteInfo : DeleteAttempt → String
  | DeleteAttempt.issue id => "Deleted issue comment " ++ toString id
  | DeleteAttempt.review id => "Deleted review comment " ++ toString id

/-- `GitHubService.deleteComment` / `deleteReviewComment`
(src/services/github.ts 154-164, 244-254): perform the platform call —
which may raise, modelled by the failure oracles — catch any error inside
the service, record a warning for a failure or an info line for a success,
and propagate nothing.  Returns whether the call succeeded and the log
line recorded. -/
def svcDelete (failsIssue failsReview : Nat → Bool) :
    DeleteAttempt → Bool × String
  | DeleteAttempt.issue id =>
    if failsIssue id then (false, deleteWarning (DeleteAttempt.issue id))
    else (true, deleteInfo (DeleteAttempt.issue id))
  | DeleteAttempt.review id =>
    if failsReview id then (false, deleteWarning (DeleteAttempt.review id))
    else (true, deleteInfo (DeleteAttempt.review id))

/-- The delete loop of `run` (src/main.ts 181-204), executed against
failure oracles for the two platform delete calls: every requested id is
resolved to a deletion attempt and the corresponding service call is made;
service-level catches (and the loop's own try/catch, src/main.ts 201-203)
keep any failure local to its iteration.  Returns, in request order, each
attempt with its success flag and log line. -/
def runDeleteLoop (failsIssue failsReview : Nat → Bool)
    (existing : List CommentRecord) (ids : List Nat) :
    List (DeleteAttempt × Bool × String) :=
  ids.map (fun id =>
    let a := deleteTarget existing id
    (a, svcDelete failsIssue failsReview a))

/-- The outcome of the posting phase of one `run` invocation
(src/main.ts 167-258): the minimize attempts, the delete attempts, and the
posted review. -/
structure ExecutedPlan where
  minimized : List Nat
  deleted : List DeleteAttempt
  posted : PostedReview
deriving DecidableEq, Repr

/-- Steps 6-8 of `run` (src/main.ts 167-258) as one pure function of the
classified prior annotations, the AI response, the reviewed file list and
the configuration: minimize the requested ids that resolve to review-type
bot comments, attempt deletion of every requested delete id, filter the
proposed comments by reviewed file and severity threshold, and post the
review (withholding the inline comment list when inline comments are
disabled). -/
def runReviewPhase (existing : List CommentRecord) (review : AIReviewResponse)
    (filesToReview : List String) (cfg : Config) : ExecutedPlan :=
  let valid := validComments review.comments filesToReview
  let filteredComments := filterBySeverity valid cfg.minSeverity
  let formattedComments := formatComments filteredComments
  { minimized := minimizeTargets existing review.minimizeCommentIds
    deleted := deleteTargets existing review.deleteCommentIds
    posted := createReview review.summary
      (if cfg.disableInline then none else some formattedComments) }

/-! ## Severity theorems -/

theorem severityNames_contains_false {l : String} (h1 : l ≠ "low")
    (h2 : l ≠ "medium") (h3 : l ≠ "high") (h4 : l ≠ "critical") :
    severityNames.contains l = false := by
  simp [severityNames, List.contains, h1, h2, h3, h4]

theorem normalizeSeverity_eq_table (s : String) :
    normalizeSeverity s
      = (severityOfString? (trimString (toLowerString s))).getD SeverityLevel.low := by
  by_cases h1 : trimString (toLowerString s) = "low"
  · simp [normalizeSeverity, severityNames, severityOfString?, h1]
  by_cases h2 : trimString (toLowerString s) = "medium"
  · simp [normalizeSeverity, severityNames, severityOfString?, h2]
  by_cases h3 : trimString (toLowerString s) = "high"
  · simp [normalizeSeverity, severityNames, severityOfString?, h3]
  by_cases h4 : trimString (toLowerString s) = "critical"
  · simp [normalizeSeverity, severityNames, severityOfString?, h4]
  · have hc := severityNames_contains_false h1 h2 h3 h4
    simp [normalizeSeverity, severityOfString?, h1, h2, h3, h4, hc]

theorem getSeverityLevel_eq_table (s : String) :
    getSeverityLevel s
      = severityRank
          ((severityOfString? (trimString (toLowerString s))).getD SeverityLevel.low) := by
  by_cases h1 : trimString (toLowerString s) = "low"
  · simp [getSeverityLevel, levels, List.lookup, severityOfString?, h1, severityRank]
  by_cases h2 : trimString (toLowerString s) = "medium"
  · simp [getSeverityLevel, levels, List.lookup, severityOfString?, h1, h2, severityRank]
  by_cases h3 : trimString (toLowerString s) = "high"
  · simp [getSeverityLevel, levels, List.lookup, severityOfString?, h1, h2, h3, severityRank]
  by_cases h4 : trimString (toLowerString s) = "critical"
  · simp [getSeverityLevel, levels, List.lookup, severityOfString?, h1, h2, h3, h4,
      severityRank]
  · have c1 := beq_eq_false_iff_ne.mpr h1
    have c2 := beq_eq_false_iff_ne.mpr h2
    have c3 := beq_eq_false_iff_ne.mpr h3
    have c4 := beq_eq_false_iff_ne.mpr h4
    simp [getSeverityLevel, levels, List.lookup, severityOfString?, h1, h2, h3, h4,
      c1, c2, c3, c4, severityRank]

/-- C5: `normalizeSeverity` lower-cases and trims its input; it returns the
matching tier exactly when the lower-cased trimmed string is one of the
four tier names, and returns `low` for every other string — it is a total
function, so no input makes it throw.  In particular `"HIGH "` normalizes
to `high` and `"urgent"` normalizes to `low`. -/
theorem C5_normalizeSeverity_total (s : String) (t : SeverityLevel) :
    (severityOfString? (trimString (toLowerString s)) = some t →
      normalizeSeverity s = t)
    ∧ (severityOfString? (trimString (toLowerString s)) = none →
      normalizeSeverity s = SeverityLevel.low)
    ∧ normalizeSeverity "HIGH " = SeverityLevel.high
    ∧ normalizeSeverity "urgent" = SeverityLevel.low := by
  refine ⟨?_, ?_, by decide, by decide⟩
  · intro h; rw [normalizeSeverity_eq_table, h]; rfl
  · intro h; rw [normalizeSeverity_eq_table, h]; rfl

theorem C5_normalizeSeverity_total_witness :
    severityOfString? (trimString (toLowerString " Medium ")) = some SeverityLevel.medium
      ∧ normalizeSeverity " Medium " = SeverityLevel.medium :=
  ⟨by decide,
    (C5_normalizeSeverity_total " Medium " SeverityLevel.medium).1 (by decide)⟩

/-- C6: the severity filter of `run` (src/main.ts 212-216) keeps exactly
the findings whose severity rank reaches the threshold rank, and is
monotone in the threshold: when the rank of threshold `t1` is at most the
rank of `t2`, every finding surviving the filter at `t2` also survives at
`t1`. -/
theorem C6_severity_filter_monotone (l : List AIComment) (t1 t2 : String) :
    (∀ c : AIComment, c ∈ filterBySeverity l t1
        ↔ c ∈ l ∧ getSeverityLevel t1 ≤ getSeverityLevel c.severity)
    ∧ (getSeverityLevel t1 ≤ getSeverityLevel t2 →
        ∀ c ∈ filterBySeverity l t2, c ∈ filterBySeverity l t1) := by
  have hmem : ∀ (t : String) (c : AIComment), c ∈ filterBySeverity l t
      ↔ c ∈ l ∧ getSeverityLevel t ≤ getSeverityLevel c.severity := by
    intro t c
    simp [filterBySeverity, List.mem_filter, ge_iff_le]
  refine ⟨hmem t1, ?_⟩
  intro h12 c hc
  obtain ⟨hcl, hc2⟩ := (hmem t2 c).1 hc
  exact (hmem t1 c).2 ⟨hcl, le_trans h12 hc2⟩

theorem C6_severity_filter_monotone_witness :
    AIComment.mk "a.ts" 1 "b" "high"
      ∈ filterBySeverity [AIComment.mk "a.ts" 1 "b" "high"] "low" :=
  (C6_severity_filter_monotone [AIComment.mk "a.ts" 1 "b" "high"] "low" "medium").2
    (by decide) (AIComment.mk "a.ts" 1 "b" "high") (by decide)

theorem getSeverityLevel_eq_rank_normalize (s : String) :
    getSeverityLevel s = severityRank (normalizeSeverity s) := by
  rw [normalizeSeverity_eq_table, getSeverityLevel_eq_table]

/-- C10 (amended): the two severity code paths agree on every input string
whose lower-cased trimmed form is not an own property name of
`Object.prototype`: there the JavaScript lookup `levels[normalized] ?? 0`
yields exactly the number `getSeverityLevel s`, which equals the rank
(low = 0, medium = 1, high = 2, critical = 3) of `normalizeSeverity s`.
On the reachable prototype names (`constructor`, `__proto__`) the program
instead returns the inherited `Object.prototype` member while the tier
path ranks them 0, so the two paths are not interchangeable there — see
the counterexample. -/
theorem C10_severity_paths_agree_off_prototype (s : String)
    (h : objectPrototypeProps.contains (trimString (toLowerString s)) = false) :
    getSeverityLevelJS s = JSLookup.num (getSeverityLevel s)
    ∧ getSeverityLevelJS s = JSLookup.num (severityRank (normalizeSeverity s)) := by
  have hfirst : getSeverityLevelJS s = JSLookup.num (getSeverityLevel s) := by
    cases hl : levels.lookup (trimString (toLowerString s)) with
    | some n => simp [getSeverityLevelJS, getSeverityLevel, hl]
    | none =>
      simp only [getSeverityLevelJS, getSeverityLevel, hl, h, Bool.false_eq_true,
        if_false, Option.getD_none]
  exact ⟨hfirst, by rw [hfirst, getSeverityLevel_eq_rank_normalize]⟩

theorem C10_severity_paths_agree_off_prototype_witness :
    objectPrototypeProps.contains (trimString (toLowerString "HIGH ")) = false
    ∧ getSeverityLevelJS "HIGH "
        = JSLookup.num (severityRank (normalizeSeverity "HIGH ")) :=
  ⟨by decide, (C10_severity_paths_agree_off_prototype "HIGH " (by decide)).2⟩

theorem C10_prototype_chain_counterexample :
    getSeverityLevelJS "constructor" = JSLookup.inherited "constructor"
    ∧ severityRank (normalizeSeverity "constructor") = 0
    ∧ getSeverityLevelJS "constructor"
        ≠ JSLookup.num (severityRank (normalizeSeverity "constructor")) := by
  decide

/-! ## Diff line-mapper theorems -/

theorem numberChanges_filterMap (cs : List RawChange) :
    ∀ oldC newC, (numberChanges oldC newC cs).filterMap newLineNumberOf
      = List.range' newC (newCount cs) := by
  induction cs with
  | nil => intro o n; rfl
  | cons c rest ih =>
    intro o n
    obtain ⟨ck, cc⟩ := c
    cases ck with
    | add =>
      simp [numberChanges, newLineNumberOf, newCount, List.range', ih o (n + 1)]
    | del =>
      simp [numberChanges, newLineNumberOf, newCount, ih (o + 1) n]
    | normal =>
      simp [numberChanges, newLineNumberOf, newCount, List.range', ih (o + 1) (n + 1)]

theorem mapHunk_filterMap (file : String) (h : Hunk) :
    (mapHunk file h).filterMap (fun l => l.newLineNumber)
      = List.range' h.newStart (newCount h.changes) := by
  unfold mapHunk
  rw [List.filterMap_map]
  exact numberChanges_filterMap h.changes h.oldStart h.newStart

theorem mapFile_filterMap (f : FileDiff) :
    (mapFile f).filterMap (fun l => l.newLineNumber)
      = (f.hunks.map (fun h => List.range' h.newStart (newCount h.changes))).flatten := by
  unfold mapFile
  rw [List.filterMap_flatten, List.map_map]
  have hmaps : List.map ((List.filterMap fun l => l.newLineNumber) ∘ mapHunk f.newPath)
      f.hunks = List.map (fun h => List.range' h.newStart (newCount h.changes)) f.hunks :=
    List.map_congr_left (fun h _ => mapHunk_filterMap f.newPath h)
  rw [hmaps]

theorem pairwise_lt_rangeAux : ∀ (n s : Nat),
    (List.range' s n).Pairwise (fun a b => a < b)
  | 0, _ => List.Pairwise.nil
  | n + 1, s => by
    refine List.Pairwise.cons ?_ (pairwise_lt_rangeAux n (s + 1))
    intro b hb
    have hmem := List.mem_range'_1.1 hb
    omega

theorem hunksOrdered_le (h : Hunk) (hs : List Hunk)
    (hord : hunksOrdered (h :: hs)) :
    ∀ h2 ∈ hs, h.newStart + newCount h.changes ≤ h2.newStart := by
  induction hs generalizing h with
  | nil => intro h2 hm; cases hm
  | cons hh t ih =>
    intro h2 hm
    rw [hunksOrdered, List.chain'_cons] at hord
    cases hm with
    | head => exact hord.1
    | tail _ hm2 =>
      have hstep := ih hh hord.2 h2 hm2
      omega

theorem flattenRanges_pairwise :
    ∀ hs : List Hunk, hunksOrdered hs →
      ((hs.map (fun h => List.range' h.newStart (newCount h.changes))).flatten).Pairwise
        (fun a b => a < b)
  | [], _ => by simp
  | h :: t, hord => by
    simp only [List.map_cons, List.flatten_cons]
    rw [List.pairwise_append]
    refine ⟨pairwise_lt_rangeAux _ _, flattenRanges_pairwise t hord.tail, ?_⟩
    intro a ha b hb
    obtain ⟨ha1, ha2⟩ := List.mem_range'_1.1 ha
    obtain ⟨lb, hlb, hbmem⟩ := List.mem_flatten.1 hb
    obtain ⟨h2, hh2, rfl⟩ := List.mem_map.1 hlb
    obtain ⟨hb1, hb2⟩ := List.mem_range'_1.1 hbmem
    have hle := hunksOrdered_le h t hord h2 hh2
    omega

theorem mapDiff_del_none (d : List FileDiff) :
    ∀ l ∈ mapDiff d, l.kind = ChangeKind.del → l.newLineNumber = none := by
  intro l hl hk
  unfold mapDiff at hl
  obtain ⟨lf, hlf, hlmem⟩ := List.mem_flatten.1 hl
  obtain ⟨f, hf, rfl⟩ := List.mem_map.1 hlf
  unfold mapFile at hlmem
  obtain ⟨lh, hlh, hlmem2⟩ := List.mem_flatten.1 hlmem
  obtain ⟨h, hh, rfl⟩ := List.mem_map.1 hlh
  unfold mapHunk at hlmem2
  obtain ⟨c, hc, rfl⟩ := List.mem_map.1 hlmem2
  simp only at hk
  simp only [newLineNumberOf, hk]

/-- C4: the diff line-mapper gives each context and added line a new-file
line number from a counter seeded at the hunk header's new-range start and
incremented once per context or added line — so the numbers of one hunk
are exactly the consecutive range starting at the declared new-range
start — assigns no number to deleted lines, and for a well-formed diff
(hunks of a file in order and non-overlapping) the numbers of the
added/context lines of one file are strictly increasing. -/
theorem C4_diff_line_mapper (file : String) (h : Hunk) (d : List FileDiff)
    (f : FileDiff) (hord : hunksOrdered f.hunks) :
    (mapHunk file h).filterMap (fun l => l.newLineNumber)
        = List.range' h.newStart (newCount h.changes)
    ∧ (∀ l ∈ mapDiff d, l.kind = ChangeKind.del → l.newLineNumber = none)
    ∧ ((mapFile f).filterMap (fun l => l.newLineNumber)).Pairwise
        (fun a b => a < b) :=
  ⟨mapHunk_filterMap file h, mapDiff_del_none d, by
    rw [mapFile_filterMap]
    exact flattenRanges_pairwise f.hunks hord⟩

theorem C4_diff_line_mapper_witness :
    hunksOrdered [Hunk.mk 1 1 [RawChange.mk ChangeKind.normal " x",
        RawChange.mk ChangeKind.add "+y", RawChange.mk ChangeKind.del "-z"],
      Hunk.mk 10 20 [RawChange.mk ChangeKind.add "+w"]]
    ∧ ((mapFile (FileDiff.mk "a.ts" "a.ts"
          [Hunk.mk 1 1 [RawChange.mk ChangeKind.normal " x",
              RawChange.mk ChangeKind.add "+y", RawChange.mk ChangeKind.del "-z"],
            Hunk.mk 10 20 [RawChange.mk ChangeKind.add "+w"]])).filterMap
        (fun l => l.newLineNumber)).Pairwise (fun a b => a < b) := by
  have hord : hunksOrdered [Hunk.mk 1 1 [RawChange.mk ChangeKind.normal " x",
      RawChange.mk ChangeKind.add "+y", RawChange.mk ChangeKind.del "-z"],
    Hunk.mk 10 20 [RawChange.mk ChangeKind.add "+w"]] :=
    List.chain'_cons.2 ⟨by decide, List.chain'_singleton _⟩
  exact ⟨hord,
    (C4_diff_line_mapper "a.ts"
      (Hunk.mk 1 1 [RawChange.mk ChangeKind.normal " x",
        RawChange.mk ChangeKind.add "+y", RawChange.mk ChangeKind.del "-z"]) []
      (FileDiff.mk "a.ts" "a.ts"
        [Hunk.mk 1 1 [RawChange.mk ChangeKind.normal " x",
            RawChange.mk ChangeKind.add "+y", RawChange.mk ChangeKind.del "-z"],
          Hunk.mk 10 20 [RawChange.mk ChangeKind.add "+w"]]) hord).2.2⟩

/-! ## Classifier and executor theorems -/

/-- C7 (amended): every annotation record produced by `listBotComments`
comes from a comment whose author login equals the system's own identity
(`github-actions[bot]`); comments authored by anyone else never appear in
the classified set, and the minimize path only ever targets ids present in
that set (so non-self comments are never minimized).  The delete loop,
however, falls back to a review-comment delete attempt for ids absent from
the classified set, so a non-self comment can still be deleted when its id
is explicitly requested — see the counterexample. -/
theorem C7_classifier_self_only (ic : List IssueComment) (rc : List ReviewComment) :
    (∀ r ∈ listBotComments ic rc,
      (∃ c ∈ ic, c.userLogin = some getAuthenticatedUserLogin
          ∧ r = classifyIssueComment c)
      ∨ (∃ c ∈ rc, c.userLogin = some getAuthenticatedUserLogin
          ∧ r = classifyReviewComment c))
    ∧ (∀ ids : List Nat, ∀ id ∈ minimizeTargets (listBotComments ic rc) ids,
        ∃ r ∈ listBotComments ic rc, r.id = id ∧ r.type = CommentType.review) := by
  constructor
  · intro r hr
    rcases List.mem_append.1 hr with hri | hrr
    · obtain ⟨c, hc, rfl⟩ := List.mem_map.1 hri
      obtain ⟨hcm, hcp⟩ := List.mem_filter.1 hc
      exact Or.inl ⟨c, hcm, by simpa using hcp, rfl⟩
    · obtain ⟨c, hc, rfl⟩ := List.mem_map.1 hrr
      obtain ⟨hcm, hcp⟩ := List.mem_filter.1 hc
      exact Or.inr ⟨c, hcm, by simpa using hcp, rfl⟩
  · intro ids id hid
    obtain ⟨hmem, hp⟩ := List.mem_filter.1 hid
    cases hfind : (listBotComments ic rc).find? (fun c => c.id == id) with
    | none => rw [hfind] at hp; cases hp
    | some c =>
      rw [hfind] at hp
      refine ⟨c, List.mem_of_find?_eq_some hfind, ?_, by simpa using hp⟩
      have := List.find?_some hfind
      simpa using this

theorem C7_classifier_self_only_witness :
    (∃ c ∈ ([] : List IssueComment),
        c.userLogin = some getAuthenticatedUserLogin
        ∧ classifyReviewComment (ReviewComment.mk 7 (some "github-actions[bot]")
            "b" "a.ts" (some 2) none (some 1) none) = classifyIssueComment c)
    ∨ (∃ c ∈ [ReviewComment.mk 7 (some "github-actions[bot]")
          "b" "a.ts" (some 2) none (some 1) none],
        c.userLogin = some getAuthenticatedUserLogin
        ∧ classifyReviewComment (ReviewComment.mk 7 (some "github-actions[bot]")
            "b" "a.ts" (some 2) none (some 1) none) = classifyReviewComment c) :=
  (C7_classifier_self_only []
      [ReviewComment.mk 7 (some "github-actions[bot]") "b" "a.ts"
        (some 2) none (some 1) none]).1
    (classifyReviewComment (ReviewComment.mk 7 (some "github-actions[bot]")
      "b" "a.ts" (some 2) none (some 1) none)) (by decide)

theorem C7_delete_fallback_counterexample :
    listBotComments []
        [ReviewComment.mk 7 (some "alice") "body" "a.ts" (some 2) none (some 1) none]
      = []
    ∧ DeleteAttempt.review 7 ∈ deleteTargets
        (listBotComments []
          [ReviewComment.mk 7 (some "alice") "body" "a.ts" (some 2) none (some 1) none])
        [7] := by
  decide

/-- C8: when inline comments are disabled, the posted review carries no
inline comments for any batch of surviving findings, while the summary is
still formatted and posted. -/
theorem C8_disable_inline (existing : List CommentRecord) (review : AIReviewResponse)
    (files : List String) (cfg : Config) (hdi : cfg.disableInline = true) :
    (runReviewPhase existing review files cfg).posted.inlineComments = []
    ∧ (runReviewPhase existing review files cfg).posted.summaryComment
        = formatSummary review.summary := by
  constructor
  · simp [runReviewPhase, createReview, hdi]
  · rfl

theorem C8_disable_inline_witness :
    Config.disableInline (Config.mk "low" true) = true
    ∧ (runReviewPhase []
        (AIReviewResponse.mk "sum" [AIComment.mk "a.ts" 1 "b" "high"] [] [])
        ["a.ts"] (Config.mk "low" true)).posted.inlineComments = [] :=
  ⟨rfl, (C8_disable_inline []
      (AIReviewResponse.mk "sum" [AIComment.mk "a.ts" 1 "b" "high"] [] [])
      ["a.ts"] (Config.mk "low" true) rfl).1⟩

theorem svcDelete_fail_warning (fI fR : Nat → Bool) (a : DeleteAttempt)
    (h : (svcDelete fI fR a).1 = false) :
    (svcDelete fI fR a).2 = deleteWarning a := by
  cases a with
  | issue i =>
    by_cases hf : fI i = true
    · simp [svcDelete, hf]
    · simp [svcDelete, hf] at h
  | review i =>
    by_cases hf : fR i = true
    · simp [svcDelete, hf]
    · simp [svcDelete, hf] at h

/-- C9: the delete actions of a plan are attempted independently: for every
failure oracle over the two platform delete calls, the sequence of
attempted deletions of the delete loop equals the plan's delete set — so a
raising call never aborts the remaining actions — and every failing call
is caught and recorded as the service's warning line. -/
theorem C9_delete_failures_isolated (failsIssue failsReview : Nat → Bool)
    (existing : List CommentRecord) (review : AIReviewResponse)
    (files : List String) (cfg : Config) :
    (runDeleteLoop failsIssue failsReview existing review.deleteCommentIds).map
        (fun p => p.1)
      = (runReviewPhase existing review files cfg).deleted
    ∧ (∀ p ∈ runDeleteLoop failsIssue failsReview existing review.deleteCommentIds,
        p.2.1 = false → p.2.2 = deleteWarning p.1) := by
  constructor
  · simp [runDeleteLoop, runReviewPhase, deleteTargets, List.map_map, Function.comp]
  · intro p hp hfail
    obtain ⟨id, hid, rfl⟩ := List.mem_map.1 hp
    exact svcDelete_fail_warning failsIssue failsReview
      (deleteTarget existing id) hfail

theorem C9_delete_failures_isolated_witness :
    (DeleteAttempt.review 7, false, "Failed to delete review comment 7").2.1 = false
    ∧ (DeleteAttempt.review 7, false, "Failed to delete review comment 7").2.2
        = deleteWarning (DeleteAttempt.review 7, false,
            "Failed to delete review comment 7").1 :=
  ⟨rfl,
    (C9_delete_failures_isolated (fun _ => false) (fun id => id == 7) []
        (AIReviewResponse.mk "s" [] [7, 8] []) [] (Config.mk "low" false)).2
      (DeleteAttempt.review 7, false, "Failed to delete review comment 7")
      (by decide) rfl⟩

/-! ## Reconciliation theorems -/

/-- C1 (amended): when inline comments are enabled, every inline comment
passed to `createReview` originates from a proposed finding whose file is
among the reviewed files and whose severity rank reaches the configured
threshold — these two checks are the only validation performed; the
pipeline never checks a proposed `(file, line)` anchor against the diff
index, so a finding anchored to a context, deleted or non-existent line is
posted unchanged (see the counterexample). -/
theorem C1_file_and_severity_filters_only (existing : List CommentRecord)
    (review : AIReviewResponse) (files : List String) (cfg : Config)
    (hdi : cfg.disableInline = false) :
    ∀ p ∈ (runReviewPhase existing review files cfg).posted.inlineComments,
      ∃ c ∈ review.comments, files.contains c.file = true
        ∧ getSeverityLevel cfg.minSeverity ≤ getSeverityLevel c.severity
        ∧ p = InlinePayload.mk c.file c.line
            (formatInlineComment c.body c.severity) := by
  intro p hp
  simp only [runReviewPhase, createReview, hdi, if_neg Bool.false_ne_true,
    Option.getD_some] at hp
  obtain ⟨fc, hfc, rfl⟩ := List.mem_map.1 hp
  obtain ⟨c, hc, rfl⟩ := List.mem_map.1 hfc
  obtain ⟨hcv, hcs⟩ := List.mem_filter.1 hc
  obtain ⟨hcm, hcf⟩ := List.mem_filter.1 hcv
  exact ⟨c, hcm, hcf, by simpa using hcs, rfl⟩

theorem C1_file_and_severity_filters_only_witness :
    ∃ c ∈ [AIComment.mk "b.ts" 3 "m" "critical"],
      (["b.ts"] : List String).contains c.file = true
      ∧ getSeverityLevel "low" ≤ getSeverityLevel c.severity
      ∧ InlinePayload.mk "b.ts" 3 (formatInlineComment "m" "critical")
          = InlinePayload.mk c.file c.line
              (formatInlineComment c.body c.severity) :=
  C1_file_and_severity_filters_only []
    (AIReviewResponse.mk "s" [AIComment.mk "b.ts" 3 "m" "critical"] [] [])
    ["b.ts"] (Config.mk "low" false) rfl
    (InlinePayload.mk "b.ts" 3 (formatInlineComment "m" "critical")) (by decide)

theorem C1_anchor_not_validated_counterexample :
    ∃ p ∈ (runReviewPhase []
        (AIReviewResponse.mk "s" [AIComment.mk "a.ts" 1 "needs fix" "high"] [] [])
        ["a.ts"] (Config.mk "low" false)).posted.inlineComments,
      resolvesToAdded
        (mapDiff [FileDiff.mk "a.ts" "a.ts"
          [Hunk.mk 1 1 [RawChange.mk ChangeKind.normal " x",
            RawChange.mk ChangeKind.add "+y"]]])
        p.path p.line = false := by
  decide

/-- C2 (amended): the pipeline performs no deduplication of proposed
findings against prior annotations: the posted review — summary and inline
comments alike — is the same function of the AI response, the reviewed
files and the configuration whatever the classified prior-annotation set
is, so a proposed finding whose `(file, line)` anchor is already covered
by an active prior finding is posted again (see the counterexample);
prior annotations only feed the AI prompt and the minimize/delete target
resolution.  Rerunning with the same inputs reproduces the identical — not
empty — `toCreate`. -/
theorem C2_no_prior_dedup (e1 e2 : List CommentRecord) (review : AIReviewResponse)
    (files : List String) (cfg : Config) :
    (runReviewPhase e1 review files cfg).posted
      = (runReviewPhase e2 review files cfg).posted := rfl

theorem C2_covered_anchor_reposted_counterexample :
    (∃ r ∈ [CommentRecord.mk 7 "old finding" (some "a.ts") (some 2)
        CommentType.review false false false],
      r.type = CommentType.review ∧ r.isOutdated = false ∧ r.isSummary = false
        ∧ r.path = some "a.ts" ∧ r.line = some 2)
    ∧ (∃ p ∈ (runReviewPhase
        [CommentRecord.mk 7 "old finding" (some "a.ts") (some 2)
          CommentType.review false false false]
        (AIReviewResponse.mk "s" [AIComment.mk "a.ts" 2 "dup" "high"] [] [])
        ["a.ts"] (Config.mk "low" false)).posted.inlineComments,
      p.path = "a.ts" ∧ p.line = 2) := by
  decide

/-- C3 (amended): explicit minimize and delete requests are applied
independently, minimize first and delete second, with no delete-wins
conflict resolution: an id present in both request lists that resolves to
a review-type bot comment is both minimized and deleted, so the two action
sets of the plan are not disjoint (see the counterexample). -/
theorem C3_minimize_delete_independent (existing : List CommentRecord)
    (review : AIReviewResponse) (files : List String) (cfg : Config)
    (id : Nat) (c : CommentRecord)
    (hmin : id ∈ review.minimizeCommentIds)
    (hdel : id ∈ review.deleteCommentIds)
    (hfind : existing.find? (fun c0 => c0.id == id) = some c)
    (hty : c.type = CommentType.review) :
    id ∈ (runReviewPhase existing review files cfg).minimized
    ∧ DeleteAttempt.review id ∈ (runReviewPhase existing review files cfg).deleted := by
  constructor
  · simp only [runReviewPhase]
    exact List.mem_filter.2 ⟨hmin, by simp [hfind, hty]⟩
  · simp only [runReviewPhase, deleteTargets]
    exact List.mem_map.2 ⟨id, hdel, by simp [deleteTarget, hfind, hty]⟩

theorem C3_minimize_delete_independent_witness :
    9 ∈ (runReviewPhase
        [CommentRecord.mk 9 "old" (some "a.ts") (some 4) CommentType.review false false false]
        (AIReviewResponse.mk "s" [] [9] [9]) [] (Config.mk "low" true)).minimized
    ∧ DeleteAttempt.review 9 ∈ (runReviewPhase
        [CommentRecord.mk 9 "old" (some "a.ts") (some 4) CommentType.review false false false]
        (AIReviewResponse.mk "s" [] [9] [9]) [] (Config.mk "low" true)).deleted :=
  C3_minimize_delete_independent
    [CommentRecord.mk 9 "old" (some "a.ts") (some 4) CommentType.review false false false]
    (AIReviewResponse.mk "s" [] [9] [9]) [] (Config.mk "low" true) 9
    (CommentRecord.mk 9 "old" (some "a.ts") (some 4) CommentType.review false false false)
    (by decide) (by decide) (by decide) rfl

theorem C3_delete_wins_counterexample :
    7 ∈ (runReviewPhase
        [CommentRecord.mk 7 "old" (some "a.ts") (some 2) CommentType.review false false false]
        (AIReviewResponse.mk "s" [] [7] [7]) ["a.ts"] (Config.mk "low" false)).minimized
    ∧ DeleteAttempt.review 7 ∈ (runReviewPhase
        [CommentRecord.mk 7 "old" (some "a.ts") (some 2) CommentType.review false false false]
        (AIReviewResponse.mk "s" [] [7] [7]) ["a.ts"] (Config.mk "low" false)).deleted := by
  decide

end Reviewer
